import Mathlib

/-!
# Verification of the netblocks monitoring engine

Shallow embedding of the netblocks repository's monitoring core
(`internal/monitor/dns.go`, `internal/monitor/bgp.go`,
`internal/monitor/monitor.go` and the Radar traffic client) and proofs
about it.

Modelling conventions:
* Go `map[string]T` values are modelled as association lists
  `List (String × T)` with first-match lookup and in-place-replace insert,
  which matches Go map read/write semantics for the operations used here.
* `time.Time` values are modelled as `Int` Unix seconds; the Go zero
  `time.Time{}` is the constant `goZeroUnix` (its Unix second value).
* `float64` values are modelled as `ℚ`; all constants appearing in the
  sources (0.7, 0.3, 0.1, 100, …) are exactly representable.
* Network interactions are abstracted as explicit outcome parameters
  (the value the Go call would have returned); everything after the
  network call is translated from the source.
* Concurrently completing DNS probe goroutines are serialised in their
  (mutex-ordered) completion order: `CheckAll` is a fold over the list of
  per-probe completions.
-/

namespace Netblocks

/-! ## Go map model: association lists with replace-insert -/

def lookupKey {α : Type} : List (String × α) → String → Option α
  | [], _ => none
  | (k', v) :: rest, k => if k' = k then some v else lookupKey rest k

def insertKey {α : Type} : List (String × α) → String → α → List (String × α)
  | [], k, v => [(k, v)]
  | (k', v') :: rest, k, v =>
      if k' = k then (k, v) :: rest else (k', v') :: insertKey rest k v

theorem lookupKey_insertKey_self {α : Type} (m : List (String × α)) (k : String) (v : α) :
    lookupKey (insertKey m k v) k = some v := by
  induction m with
  | nil => simp [insertKey, lookupKey]
  | cons p rest ih =>
    by_cases h : p.1 = k <;> simp [insertKey, lookupKey, h, ih]

theorem lookupKey_insertKey_ne {α : Type} (m : List (String × α)) (k k' : String) (v : α)
    (h : k' ≠ k) : lookupKey (insertKey m k v) k' = lookupKey m k' := by
  have hk : k ≠ k' := Ne.symm h
  induction m with
  | nil => simp [insertKey, lookupKey, hk]
  | cons p rest ih =>
    by_cases hp : p.1 = k
    · subst hp
      simp [insertKey, lookupKey, hk]
    · by_cases hp' : p.1 = k'
      · simp [insertKey, lookupKey, hp, hp', h]
      · simp [insertKey, lookupKey, hp, hp', ih]

def mapKeys {α : Type} (m : List (String × α)) : List String := m.map Prod.fst

theorem mapKeys_insertKey {α : Type} (m : List (String × α)) (k : String) (v : α) :
    mapKeys (insertKey m k v) = if k ∈ mapKeys m then mapKeys m else mapKeys m ++ [k] := by
  induction m with
  | nil => simp [insertKey, mapKeys]
  | cons p rest ih =>
    by_cases hp : p.1 = k
    · subst hp; simp [insertKey, mapKeys]
    · have hkp : ¬k = p.1 := fun hh => hp hh.symm
      have hstep : mapKeys (insertKey (p :: rest) k v) = p.1 :: mapKeys (insertKey rest k v) := by
        simp [insertKey, hp, mapKeys]
      rw [hstep, ih]
      by_cases hm : k ∈ List.map Prod.fst rest
      · simp [mapKeys, List.mem_cons, hm, hkp]
      · simp [mapKeys, List.mem_cons, hm, hkp]

theorem nodup_mapKeys_insertKey {α : Type} (m : List (String × α)) (k : String) (v : α)
    (h : (mapKeys m).Nodup) : (mapKeys (insertKey m k v)).Nodup := by
  rw [mapKeys_insertKey]
  by_cases hm : k ∈ mapKeys m
  · simpa [hm] using h
  · rw [if_neg hm, List.nodup_append]
    refine ⟨h, List.nodup_singleton k, ?_⟩
    intro a ha hk
    rw [List.mem_singleton] at hk
    subst hk
    exact hm ha

theorem lookupKey_isSome_of_mem_keys {α : Type} (m : List (String × α)) (k : String)
    (h : k ∈ mapKeys m) : (lookupKey m k).isSome := by
  induction m with
  | nil => simp [mapKeys] at h
  | cons p rest ih =>
    by_cases hp : p.1 = k
    · simp [lookupKey, hp]
    · simp only [mapKeys, List.map_cons, List.mem_cons] at h
      rcases h with h | h
      · exact absurd h.symm hp
      · simpa [lookupKey, hp] using ih h

theorem not_mem_keys_of_lookupKey_none {α : Type} (m : List (String × α)) (k : String)
    (h : lookupKey m k = none) : k ∉ mapKeys m := by
  intro hmem
  have := lookupKey_isSome_of_mem_keys m k hmem
  rw [h] at this
  simp at this

/-! ## DNS prober (`internal/monitor/dns.go`)

`models.DNSStatus` and `config.DNSServer`.  Durations and instants are
`Int` (seconds for `lastCheck`, milliseconds for `responseTime`; neither
unit matters for the claims). -/

structure DNSStatus where
  server : String
  name : String
  alive : Bool
  responseTime : Int
  lastCheck : Int
  error : String
  deriving DecidableEq

structure DNSServer where
  address : String
  name : String
  type : String
  deriving DecidableEq

/-- The composite map key `server.Address + ":" + server.Name` used by
`NewDNSMonitor`, `CheckAll` and `checkServer`. -/
def dnsKey (srv : DNSServer) : String := srv.address ++ ":" ++ srv.name

/-- The final publish step of `checkServer` (dns.go lines 257-270): under
`dm.mu`, if an existing record for the composite key is alive and the new
status is not, keep the existing record (and return it); otherwise store the
new status.  Returns the updated `dm.statuses` map and the status returned
to `CheckAll`. -/
def publishServerStatus (statuses : List (String × DNSStatus)) (key : String)
    (status : DNSStatus) : List (String × DNSStatus) × DNSStatus :=
  match lookupKey statuses key with
  | some existing =>
      if existing.alive ∧ ¬status.alive then (statuses, existing)
      else (insertKey statuses key status, status)
  | none => (insertKey statuses key status, status)

/-- State of one `CheckAll` round: the `aliveIPs` set, the monitor's
`dm.statuses` map, and the round's `results` map. -/
structure DNSRoundState where
  aliveIPs : List String
  statuses : List (String × DNSStatus)
  results : List (String × DNSStatus)

/-- One probe goroutine's completion (dns.go lines 102-126 plus the
`checkServer` publish it performs just before): `computed` is the status
`checkServer` computed from the wire outcome.  The goroutine first runs
the `checkServer` publish under `dm.mu`, then the merge section under
`mu`: upgrade to alive if the address is already in `aliveIPs`, record the
address if alive, and store into `results`. -/
def checkAllStep (rs : DNSRoundState) (srv : DNSServer) (computed : DNSStatus) :
    DNSRoundState :=
  let pub := publishServerStatus rs.statuses (dnsKey srv) computed
  let ret := pub.2
  let ret :=
    if ¬ret.alive ∧ srv.address ∈ rs.aliveIPs then
      { ret with alive := true, error := "" }
    else ret
  { aliveIPs := if ret.alive then srv.address :: rs.aliveIPs else rs.aliveIPs
    statuses := pub.1
    results := insertKey rs.results (dnsKey srv) ret }

/-- Recursion over the per-probe completions, serialised in the order the
goroutines take the mutexes. -/
def dnsRoundGo (rs : DNSRoundState) : List (DNSServer × DNSStatus) → DNSRoundState
  | [] => rs
  | (srv, st) :: rest => dnsRoundGo (checkAllStep rs srv st) rest

/-- Fold of a round over the per-probe completions, starting from an empty
`aliveIPs` set and an empty `results` map. -/
def dnsRoundFold (statuses0 : List (String × DNSStatus))
    (completions : List (DNSServer × DNSStatus)) : DNSRoundState :=
  dnsRoundGo ⟨[], statuses0, []⟩ completions

/-- `CheckAll` (dns.go lines 92-140): run all probes, then copy every entry
of `results` into `dm.statuses`.  Returns the final `dm.statuses` (the map
later exported by `GetStatuses`) and the `results` map. -/
def checkAll (statuses0 : List (String × DNSStatus))
    (completions : List (DNSServer × DNSStatus)) :
    List (String × DNSStatus) × List (String × DNSStatus) :=
  let final := dnsRoundFold statuses0 completions
  (final.results.foldl (fun m p => insertKey m p.1 p.2) final.statuses,
   final.results)

/-- **C3.** When publishing a DNS result for a given `(address, name)` key,
the prior record is overwritten, except that a prior `alive = true` record
is kept unchanged when the new result has `alive = false`. -/
theorem publishServerStatus_overwrite_except_alive
    (statuses : List (String × DNSStatus)) (key : String) (status : DNSStatus) :
    (∀ existing, lookupKey statuses key = some existing →
        existing.alive = true → status.alive = false →
        (publishServerStatus statuses key status).1 = statuses) ∧
    (∀ existing, lookupKey statuses key = some existing →
        (existing.alive = false ∨ status.alive = true) →
        (publishServerStatus statuses key status).1 = insertKey statuses key status) ∧
    (lookupKey statuses key = none →
        (publishServerStatus statuses key status).1 = insertKey statuses key status) ∧
    (∀ k', k' ≠ key →
        lookupKey (publishServerStatus statuses key status).1 k' = lookupKey statuses k') := by
  refine ⟨?_, ?_, ?_, ?_⟩
  · intro existing hl ha hs
    simp [publishServerStatus, hl, ha, hs]
  · intro existing hl hcase
    rcases hcase with hdead | halive
    · simp [publishServerStatus, hl, hdead]
    · simp [publishServerStatus, hl, halive]
  · intro hl
    simp [publishServerStatus, hl]
  · intro k' hk'
    cases hl : lookupKey statuses key with
    | none =>
      simp only [publishServerStatus, hl]
      exact lookupKey_insertKey_ne statuses key k' status hk'
    | some existing =>
      by_cases hguard : existing.alive = true ∧ ¬status.alive = true
      · simp only [publishServerStatus, hl, if_pos hguard]
      · simp only [publishServerStatus, hl, if_neg hguard]
        exact lookupKey_insertKey_ne statuses key k' status hk'

theorem dnsRoundGo_append (l1 l2 : List (DNSServer × DNSStatus)) (rs : DNSRoundState) :
    dnsRoundGo rs (l1 ++ l2) = dnsRoundGo (dnsRoundGo rs l1) l2 := by
  induction l1 generalizing rs with
  | nil => rfl
  | cons p rest ih => cases p; simp [dnsRoundGo, ih]

theorem dnsRoundGo_results_lookup_stable (rest : List (DNSServer × DNSStatus))
    (rs : DNSRoundState) (k : String) (r : DNSStatus)
    (hk : k ∉ rest.map (fun p => dnsKey p.1))
    (h : lookupKey rs.results k = some r) :
    lookupKey (dnsRoundGo rs rest).results k = some r := by
  induction rest generalizing rs with
  | nil => exact h
  | cons p tail ih =>
    simp only [List.map_cons, List.mem_cons] at hk
    push_neg at hk
    cases p with
    | mk srv st =>
      refine ih _ hk.2 ?_
      simp only [checkAllStep]
      rw [lookupKey_insertKey_ne _ _ _ _ hk.1]
      exact h

theorem dnsRoundGo_results_nodup (rest : List (DNSServer × DNSStatus)) (rs : DNSRoundState)
    (h : (mapKeys rs.results).Nodup) : (mapKeys (dnsRoundGo rs rest).results).Nodup := by
  induction rest generalizing rs with
  | nil => exact h
  | cons p tail ih =>
    cases p with
    | mk srv st => exact ih _ (nodup_mapKeys_insertKey _ _ _ h)

theorem lookupKey_foldl_insertKey_not_mem {α : Type} (l : List (String × α))
    (m0 : List (String × α)) (k : String) (hk : k ∉ mapKeys l) :
    lookupKey (l.foldl (fun m p => insertKey m p.1 p.2) m0) k = lookupKey m0 k := by
  induction l generalizing m0 with
  | nil => rfl
  | cons p rest ih =>
    simp only [mapKeys, List.map_cons, List.mem_cons] at hk
    push_neg at hk
    rw [List.foldl_cons, ih _ (by simpa [mapKeys] using hk.2)]
    exact lookupKey_insertKey_ne m0 p.1 k p.2 hk.1

theorem lookupKey_foldl_insertKey_of_nodup {α : Type} (l : List (String × α))
    (m0 : List (String × α)) (k : String) (v : α) (hnd : (mapKeys l).Nodup)
    (h : lookupKey l k = some v) :
    lookupKey (l.foldl (fun m p => insertKey m p.1 p.2) m0) k = some v := by
  induction l generalizing m0 with
  | nil => simp [lookupKey] at h
  | cons p rest ih =>
    simp only [mapKeys, List.map_cons, List.nodup_cons] at hnd
    by_cases hp : p.1 = k
    · subst hp
      simp only [lookupKey, if_pos rfl] at h
      cases h
      rw [List.foldl_cons,
        lookupKey_foldl_insertKey_not_mem rest _ p.1 (by simpa [mapKeys] using hnd.1)]
      exact lookupKey_insertKey_self m0 p.1 _
    · simp only [lookupKey, if_neg hp] at h
      rw [List.foldl_cons]
      exact ih _ hnd.2 h

/-- `8.8.8.8` under display name `X` (curation alias), never yet checked. -/
def dnsInitX : DNSStatus :=
  { server := "8.8.8.8", name := "X", alive := false, responseTime := 0,
    lastCheck := 0, error := "" }

/-- `8.8.8.8` under display name `Y` (curation alias), never yet checked. -/
def dnsInitY : DNSStatus :=
  { server := "8.8.8.8", name := "Y", alive := false, responseTime := 0,
    lastCheck := 0, error := "" }

/-- Probe outcome: the probe for `(8.8.8.8, X)` succeeded. -/
def probeAliveX : DNSStatus :=
  { server := "8.8.8.8", name := "X", alive := true, responseTime := 12,
    lastCheck := 30, error := "" }

/-- Probe outcome: the probe for `(8.8.8.8, Y)` timed out. -/
def probeDeadY : DNSStatus :=
  { server := "8.8.8.8", name := "Y", alive := false, responseTime := 8000,
    lastCheck := 31, error := "Network error: timeout" }

def srvX : DNSServer := { address := "8.8.8.8", name := "X", type := "recursive" }

def srvY : DNSServer := { address := "8.8.8.8", name := "Y", type := "recursive" }

/-- The curated statuses at round start: both aliases of `8.8.8.8` dead. -/
def dnsStatuses0 : List (String × DNSStatus) :=
  [("8.8.8.8:X", dnsInitX), ("8.8.8.8:Y", dnsInitY)]

/-- **C1 (counterexample).** The claim as stated is false: the upgrade of
results sharing an alive address is applied incrementally in completion
order, so a failing probe for `8.8.8.8` that merges *before* the alive
probe for the same address stays `alive = false` in the published
snapshot, while the other record is `alive = true`. -/
theorem checkAll_shared_address_counterexample :
    ¬ (∀ (statuses0 : List (String × DNSStatus))
        (completions : List (DNSServer × DNSStatus)) (k1 k2 : String) (s1 s2 : DNSStatus),
        lookupKey (checkAll statuses0 completions).1 k1 = some s1 →
        lookupKey (checkAll statuses0 completions).1 k2 = some s2 →
        s1.server = s2.server → s1.alive = s2.alive) := by
  intro h
  have hc := h dnsStatuses0 [(srvY, probeDeadY), (srvX, probeAliveX)]
    "8.8.8.8:X" "8.8.8.8:Y" probeAliveX probeDeadY
    (by decide) (by decide) (by decide)
  exact absurd hc (by decide)

/-- **C1 (amended).** The publish step of a DNS round upgrades each result,
at the moment it is merged, using the set of addresses found alive by
results merged earlier in the round: a result whose address is already in
the round's alive set when it merges is published with `alive = true`.
(Agreement between records sharing an address is therefore guaranteed only
when every alive result for the address merges before every failing one;
the counterexample shows the round-wide claim fails otherwise.) -/
theorem checkAll_alive_propagates (statuses0 : List (String × DNSStatus))
    (pre post : List (DNSServer × DNSStatus)) (srv : DNSServer) (computed : DNSStatus)
    (hpost : dnsKey srv ∉ post.map (fun p => dnsKey p.1))
    (halive : srv.address ∈ (dnsRoundFold statuses0 pre).aliveIPs) :
    ∃ r, lookupKey (checkAll statuses0 (pre ++ (srv, computed) :: post)).1 (dnsKey srv)
        = some r ∧ r.alive = true := by
  set rs := dnsRoundFold statuses0 pre with hrs
  have hgo : dnsRoundFold statuses0 (pre ++ (srv, computed) :: post)
      = dnsRoundGo (checkAllStep rs srv computed) post := by
    rw [dnsRoundFold, dnsRoundGo_append]
    rfl
  -- the status published at the merge step is alive
  set pubret := (publishServerStatus rs.statuses (dnsKey srv) computed).2 with hpub
  set ret := if ¬pubret.alive ∧ srv.address ∈ rs.aliveIPs then
      { pubret with alive := true, error := "" } else pubret with hret
  have hretalive : ret.alive = true := by
    by_cases ha : pubret.alive = true
    · simp [hret, ha]
    · have : ¬pubret.alive ∧ srv.address ∈ rs.aliveIPs := by
        exact ⟨by simpa using ha, halive⟩
      simp [hret, this]
  have hstep : lookupKey (checkAllStep rs srv computed).results (dnsKey srv) = some ret := by
    simp only [checkAllStep, hret, hpub]
    exact lookupKey_insertKey_self _ _ _
  have hfinal : lookupKey (dnsRoundGo (checkAllStep rs srv computed) post).results
      (dnsKey srv) = some ret :=
    dnsRoundGo_results_lookup_stable post _ _ _ hpost hstep
  have hnodup : (mapKeys (dnsRoundGo (checkAllStep rs srv computed) post).results).Nodup := by
    refine dnsRoundGo_results_nodup post _ ?_
    refine nodup_mapKeys_insertKey _ _ _ ?_
    have : (mapKeys (⟨[], statuses0, []⟩ : DNSRoundState).results).Nodup := by
      simp [mapKeys]
    exact dnsRoundGo_results_nodup pre _ this
  refine ⟨ret, ?_, hretalive⟩
  show lookupKey ((dnsRoundFold statuses0 (pre ++ (srv, computed) :: post)).results.foldl
      (fun m p => insertKey m p.1 p.2)
      (dnsRoundFold statuses0 (pre ++ (srv, computed) :: post)).statuses) (dnsKey srv) = some ret
  rw [hgo]
  exact lookupKey_foldl_insertKey_of_nodup _ _ _ _ hnodup hfinal

/-- Witness for the amended C1: with the alive probe for `8.8.8.8` merging
first, the later failing probe for the same address is published alive. -/
theorem checkAll_alive_propagates_witness :
    ∃ r, lookupKey (checkAll dnsStatuses0
        [(srvX, probeAliveX), (srvY, probeDeadY)]).1 "8.8.8.8:Y" = some r ∧
      r.alive = true := by
  have h := checkAll_alive_propagates dnsStatuses0 [(srvX, probeAliveX)] [] srvY probeDeadY
    (by decide) (by decide)
  simpa using h

/-- A concrete alive DNS record (used by witnesses). -/
def dnsAliveStX : DNSStatus :=
  { server := "8.8.8.8", name := "X", alive := true, responseTime := 5,
    lastCheck := 10, error := "" }

/-- A concrete failed DNS record (used by witnesses). -/
def dnsDeadStX : DNSStatus :=
  { server := "8.8.8.8", name := "X", alive := false, responseTime := 9,
    lastCheck := 20, error := "Network error: timeout" }

/-- Witness for C3 at concrete inputs: an alive prior record survives a
dead result, and a dead prior record is overwritten. -/
theorem publishServerStatus_overwrite_except_alive_witness :
    (publishServerStatus [("8.8.8.8:X", dnsAliveStX)] "8.8.8.8:X" dnsDeadStX).1 =
        [("8.8.8.8:X", dnsAliveStX)] ∧
    (publishServerStatus [("8.8.8.8:X", dnsDeadStX)] "8.8.8.8:X" dnsAliveStX).1 =
        [("8.8.8.8:X", dnsAliveStX)] := by
  constructor
  · exact (publishServerStatus_overwrite_except_alive
      [("8.8.8.8:X", dnsAliveStX)] "8.8.8.8:X" dnsDeadStX).1
      dnsAliveStX (by rfl) (by rfl) (by rfl)
  · have h := (publishServerStatus_overwrite_except_alive
      [("8.8.8.8:X", dnsDeadStX)] "8.8.8.8:X" dnsAliveStX).2.1
      dnsDeadStX (by rfl) (Or.inl (by rfl))
    rw [h]
    rfl

/-! ## BGP subscriber (`internal/monitor/bgp.go`)

`models.ASNStatus`, the RIS Live UPDATE handler and the read-time
connectivity derivation.  Instants are Unix seconds (`Int`); the Go zero
`time.Time{}` has Unix second value `goZeroUnix`. -/

/-- Unix seconds of the Go zero `time.Time{}` (January 1, year 1 UTC). -/
def goZeroUnix : Int := -62135596800

structure ASNStatus where
  asn : String
  country : String
  name : String
  connected : Bool
  lastSeen : Int
  lastUpdate : Int
  deriving DecidableEq

/-- An element of an AS_SET sub-array of a RIS path.  `handleRISMessage`
inspects only `float64` members of a set (`num`); strings or deeper arrays
inside a set are skipped. -/
inductive PathSetElem where
  | num (n : Int)
  | str (s : String)
  | other
  deriving DecidableEq

/-- An element of the heterogeneous RIS `path` array: a JSON number, a
string, an AS_SET sub-array, or anything else. -/
inductive PathElem where
  | num (n : Int)
  | str (s : String)
  | set (elems : List PathSetElem)
  | other
  deriving DecidableEq

/-- The fields of a `RISUpdateMessage` the handler reads. -/
structure RISUpdateMessage where
  timestamp : Int
  peerASN : String
  type : String
  path : List PathElem
  deriving DecidableEq

/-- Drop the `"AS"` marker from a canonical ASN string (bgp.go lines
338-341: `if len(asn) > 2 && asn[:2] == "AS" { asnNumber = asn[2:] }`). -/
def asnNumberOf (asn : String) : String :=
  if asn.length > 2 ∧ asn.take 2 = "AS" then asn.drop 2 else asn

/-- `SubscribeToASN`'s freshly initialised record (bgp.go lines 181-190). -/
def initialASNStatus (asn name : String) (now : Int) : ASNStatus :=
  { asn := asn, country := "IR", name := name, connected := false,
    lastSeen := goZeroUnix, lastUpdate := now }

/-- The stamp `handleRISMessage` applies on a match (bgp.go lines 345-349):
`Connected ← true`, `LastSeen ← update timestamp`, `LastUpdate ← now`. -/
def applyUpdateStamp (st : ASNStatus) (ts now : Int) : ASNStatus :=
  { st with connected := true, lastSeen := ts, lastUpdate := now }

/-- Whether one path element triggers the update for `asnNumber` (bgp.go
lines 354-384).  A JSON number is rendered with `%.0f` (decimal string); a
set is scanned for `float64` members only; the default `switch` branch
leaves `pathASN` as the empty string which is then compared. -/
def pathElemMatch (asnNumber : String) : PathElem → Bool
  | .num n => toString n == asnNumber
  | .str s => s == asnNumber
  | .set elems =>
      elems.any fun e =>
        match e with
        | .num n => toString n == asnNumber
        | _ => false
  | .other => "" == asnNumber

/-- The complete match test of `handleRISMessage` for one monitored ASN:
peer ASN equality or a hit anywhere in the path. -/
def asnMatchesUpdate (asnNumber : String) (upd : RISUpdateMessage) : Bool :=
  upd.peerASN == asnNumber || upd.path.any (pathElemMatch asnNumber)

/-- Per-ASN body of the `handleRISMessage` loop.  In the Go source the
record is stamped once per matching comparison; all stamps in one message
write identical values, so they collapse to a single conditional write. -/
def applyRISUpdateFor (m : List (String × ASNStatus)) (asn : String)
    (upd : RISUpdateMessage) (now : Int) : List (String × ASNStatus) :=
  if asnMatchesUpdate (asnNumberOf asn) upd then
    match lookupKey m asn with
    | some st => insertKey m asn (applyUpdateStamp st upd.timestamp now)
    | none => m
  else m

/-- `handleRISMessage` (bgp.go lines 322-386): ignore non-UPDATE messages,
else check every subscribed ASN against the peer ASN and the path. -/
def handleRISMessage (subscribed : List String) (m : List (String × ASNStatus))
    (upd : RISUpdateMessage) (now : Int) : List (String × ASNStatus) :=
  if upd.type ≠ "UPDATE" then m
  else subscribed.foldl (fun acc asn => applyRISUpdateFor acc asn upd now) m

theorem applyUpdateStamp_idem (st : ASNStatus) (ts now : Int) :
    applyUpdateStamp (applyUpdateStamp st ts now) ts now = applyUpdateStamp st ts now := rfl

theorem foldl_applyRISUpdateFor_stable (upd : RISUpdateMessage) (now : Int)
    (asn : String) (st : ASNStatus) (l : List String) (acc : List (String × ASNStatus))
    (h : lookupKey acc asn = some (applyUpdateStamp st upd.timestamp now)) :
    lookupKey (l.foldl (fun acc a => applyRISUpdateFor acc a upd now) acc) asn
      = some (applyUpdateStamp st upd.timestamp now) := by
  induction l generalizing acc with
  | nil => exact h
  | cons a rest ih =>
    rw [List.foldl_cons]
    refine ih _ ?_
    by_cases hm : asnMatchesUpdate (asnNumberOf a) upd = true
    · by_cases ha : a = asn
      · subst ha
        simp only [applyRISUpdateFor, hm, if_true, h]
        rw [lookupKey_insertKey_self, applyUpdateStamp_idem]
      · cases hl : lookupKey acc a with
        | none => simpa [applyRISUpdateFor, hm, hl] using h
        | some st' =>
          simp only [applyRISUpdateFor, hm, if_true, hl]
          rw [lookupKey_insertKey_ne _ _ _ _ (fun hh => ha hh.symm)]
          exact h
    · simpa [applyRISUpdateFor, hm] using h

theorem foldl_applyRISUpdateFor_updates (upd : RISUpdateMessage) (now : Int)
    (asn : String) (st : ASNStatus) (l : List String) (acc : List (String × ASNStatus))
    (hmem : asn ∈ l) (hmatch : asnMatchesUpdate (asnNumberOf asn) upd = true)
    (h : lookupKey acc asn = some st ∨
        lookupKey acc asn = some (applyUpdateStamp st upd.timestamp now)) :
    lookupKey (l.foldl (fun acc a => applyRISUpdateFor acc a upd now) acc) asn
      = some (applyUpdateStamp st upd.timestamp now) := by
  induction l generalizing acc with
  | nil => simp at hmem
  | cons a rest ih =>
    rw [List.foldl_cons]
    by_cases ha : a = asn
    · subst ha
      rcases h with h | h
      · refine foldl_applyRISUpdateFor_stable upd now a st rest _ ?_
        simp only [applyRISUpdateFor, hmatch, if_true, h]
        rw [lookupKey_insertKey_self]
      · refine foldl_applyRISUpdateFor_stable upd now a st rest _ ?_
        simp only [applyRISUpdateFor, hmatch, if_true, h]
        rw [lookupKey_insertKey_self, applyUpdateStamp_idem]
    · have hmem' : asn ∈ rest := by
        rcases List.mem_cons.mp hmem with hh | hh
        · exact absurd hh.symm ha
        · exact hh
      refine ih _ hmem' ?_
      by_cases hm : asnMatchesUpdate (asnNumberOf a) upd = true
      · cases hl : lookupKey acc a with
        | none => simpa [applyRISUpdateFor, hm, hl] using h
        | some st' =>
          simp only [applyRISUpdateFor, hm, if_true, hl]
          rw [lookupKey_insertKey_ne _ _ _ _ (fun hh => ha hh.symm)]
          exact h
      · simpa [applyRISUpdateFor, hm] using h

/-- **C4.** For every processed BGP UPDATE, each monitored ASN whose
decimal number equals the peer ASN or appears in the AS path (as a number
or string element, or as a number inside an AS_SET sub-array) has its
record updated with `connected = true`, `last_seen_at` = the update's
timestamp, and `last_update_at` = now. -/
theorem handleRISMessage_updates_matching (subscribed : List String)
    (m : List (String × ASNStatus)) (upd : RISUpdateMessage) (now : Int)
    (asn : String) (st : ASNStatus)
    (hmem : asn ∈ subscribed) (htype : upd.type = "UPDATE")
    (hmatch : asnMatchesUpdate (asnNumberOf asn) upd = true)
    (hst : lookupKey m asn = some st) :
    lookupKey (handleRISMessage subscribed m upd now) asn
      = some (applyUpdateStamp st upd.timestamp now) := by
  rw [handleRISMessage, if_neg (by simp [htype])]
  exact foldl_applyRISUpdateFor_updates upd now asn st subscribed m hmem hmatch (Or.inl hst)

/-- The scenario-S2 update: `peer_asn = "7018"`,
`path = [7018, [12345, 13335], 44244]`. -/
def updS2 : RISUpdateMessage :=
  { timestamp := 42, peerASN := "7018", type := "UPDATE",
    path := [PathElem.num 7018, PathElem.set [PathSetElem.num 12345, PathSetElem.num 13335],
             PathElem.num 44244] }

/-- Witness for C4 (scenario S2): both `AS13335` (inside the AS_SET) and
`AS44244` (top-level path member) get stamped. -/
theorem handleRISMessage_updates_matching_witness :
    lookupKey (handleRISMessage ["AS13335", "AS44244"]
        [("AS13335", initialASNStatus "AS13335" "Cloudflare" 0),
         ("AS44244", initialASNStatus "AS44244" "Unknown" 0)] updS2 99) "AS13335"
      = some (applyUpdateStamp (initialASNStatus "AS13335" "Cloudflare" 0) 42 99) ∧
    lookupKey (handleRISMessage ["AS13335", "AS44244"]
        [("AS13335", initialASNStatus "AS13335" "Cloudflare" 0),
         ("AS44244", initialASNStatus "AS44244" "Unknown" 0)] updS2 99) "AS44244"
      = some (applyUpdateStamp (initialASNStatus "AS44244" "Unknown" 0) 42 99) := by
  constructor
  · exact handleRISMessage_updates_matching ["AS13335", "AS44244"] _ updS2 99 "AS13335"
      (initialASNStatus "AS13335" "Cloudflare" 0) (by decide) (by decide) (by decide) (by decide)
  · exact handleRISMessage_updates_matching ["AS13335", "AS44244"] _ updS2 99 "AS44244"
      (initialASNStatus "AS44244" "Unknown" 0) (by decide) (by decide) (by decide) (by decide)

/-- The read-time derivation of one entry in `CheckConnectivity` (bgp.go
lines 400-419): `connected = stored Connected AND (now − LastSeen < 30
minutes)`; every other field is copied. -/
def checkConnectivityStatus (now : Int) (st : ASNStatus) : ASNStatus :=
  { st with connected := st.connected && decide (now - st.lastSeen < 30 * 60) }

/-- `CheckConnectivity` (bgp.go lines 390-434): build the exported map over
the subscribed ASNs, deriving `connected` per entry; a missing entry (the
"shouldn't happen" safety branch) gets a fresh initial record. -/
def checkConnectivity (subscribed : List String) (nameOf : String → String)
    (m : List (String × ASNStatus)) (now : Int) : List (String × ASNStatus) :=
  subscribed.foldl (fun acc asn =>
    match lookupKey m asn with
    | some st => insertKey acc asn (checkConnectivityStatus now st)
    | none => insertKey acc asn (initialASNStatus asn (nameOf asn) now)) []

/-- The per-ASN records reachable in the BGP client: the `SubscribeToASN`
initial record, updated any number of times by `handleRISMessage` stamps. -/
inductive ReachableASNStatus : ASNStatus → Prop
  | init (asn name : String) (now : Int) :
      ReachableASNStatus (initialASNStatus asn name now)
  | update (st : ASNStatus) (ts now : Int) (h : ReachableASNStatus st) :
      ReachableASNStatus (applyUpdateStamp st ts now)

/-- Ingestion invariant: a record whose stored `connected` flag is false
was never stamped, so its `lastSeen` is still the Go zero time. -/
theorem reachable_lastSeen_zero_of_not_connected (st : ASNStatus)
    (h : ReachableASNStatus st) (hc : st.connected = false) :
    st.lastSeen = goZeroUnix := by
  cases h with
  | init asn name now => rfl
  | update st ts now h => simp [applyUpdateStamp] at hc

/-- **C2.** For every ASN entry of an exported snapshot (a reachable stored
record derived at a snapshot time `now ≥ 0`), the exported `connected`
flag equals `last_seen_at ≠ zero AND now − last_seen_at < 30 minutes`; in
particular the stored ingestion-time flag is replaced by this read-time
recomputation. -/
theorem checkConnectivity_connected_eq (st : ASNStatus) (now : Int)
    (hr : ReachableASNStatus st) (hnow : 0 ≤ now) :
    (checkConnectivityStatus now st).connected
      = (decide (st.lastSeen ≠ goZeroUnix) && decide (now - st.lastSeen < 30 * 60)) := by
  by_cases hc : st.connected = true
  · by_cases hf : now - st.lastSeen < 30 * 60
    · have hz : st.lastSeen ≠ goZeroUnix := by
        intro hzz
        rw [hzz] at hf
        simp only [goZeroUnix] at hf
        omega
      simp [checkConnectivityStatus, hc, hf, hz]
    · have hdf : ¬(now - st.lastSeen < 1800) := by simpa using hf
      simp [checkConnectivityStatus, hc, hdf]
  · have hcf : st.connected = false := by simpa using hc
    have hz := reachable_lastSeen_zero_of_not_connected st hr hcf
    simp [checkConnectivityStatus, hcf, hz]

/-- Witness for C2: a record stamped at `lastSeen = 50` and read at
`now = 100` is exported connected, matching the recomputation. -/
theorem checkConnectivity_connected_eq_witness :
    (checkConnectivityStatus 100
        (applyUpdateStamp (initialASNStatus "AS13335" "Cloudflare" 0) 50 60)).connected
      = true := by
  have h := checkConnectivity_connected_eq
    (applyUpdateStamp (initialASNStatus "AS13335" "Cloudflare" 0) 50 60) 100
    (ReachableASNStatus.update _ 50 60 (ReachableASNStatus.init "AS13335" "Cloudflare" 0))
    (by decide)
  rw [h]
  decide

/-! ## Radar traffic client (`traffic.go`, current version)

`float64` is modelled as `ℚ`; the constants 0.7/0.3/0.1/100 are exactly
representable.  Timestamp strings are parsed by an abstract
`parse : String → Option Int` standing for `time.Parse(time.RFC3339, ·)`. -/

structure TrafficData where
  currentLevel : ℚ
  trend24h : List ℚ
  timestamps : List Int
  changePercent : ℚ
  status : String
  statusEmoji : String
  lastUpdate : Int
  deriving DecidableEq

/-- `determineStatus` (traffic.go lines 1463-1476). -/
def determineStatus (current baseline : ℚ) : String × String :=
  let ratio := current / baseline
  if ratio > 0.7 then ("Normal", "🟢")
  else if ratio > 0.3 then ("Degraded", "🟡")
  else if ratio > 0.1 then ("Throttled", "🟠")
  else ("Shutdown", "🔴")

/-- `sliceLast24` (traffic.go lines 1324-1333): keep only the last 24 data
points, but bail out unchanged when *either* list already has ≤ 24
entries. -/
def sliceLast24 (timestamps : List String) (values : List ℚ) :
    List String × List ℚ :=
  if values.length ≤ 24 ∨ timestamps.length ≤ 24 then (timestamps, values)
  else
    let start := values.length - 24
    if timestamps.length > start then (timestamps.drop start, values.drop start)
    else (timestamps, values.drop start)

/-- `processData` (traffic.go lines 1384-1460).  Returns the built
`TrafficData` together with the traffic monitor's updated `baseline`
field. -/
def processData (parse : String → Option Int) (now : Int) (baseline : ℚ)
    (values : List ℚ) (timestamps : List String) : Option (TrafficData × ℚ) :=
  if values.length = 0 then none
  else
    let half := values.length / 2
    let baselineNew :=
      if baseline = 100 ∧ values.length > 12 then
        (values.take half).foldl (fun s v => s + v) 0 / (half : ℚ)
      else baseline
    let maxVal := values.foldl (fun m v => if v > m then v else m) 1
    let trend := values.map (fun v => v / maxVal * 100)
    let currentLevel := trend.getLastD 0
    let baselinePercent : ℚ :=
      if trend.length > 12 then (trend.take 12).foldl (fun s v => s + v) 0 / 12 else 100
    let changePercent := (currentLevel - baselinePercent) / baselinePercent * 100
    let se := determineStatus currentLevel baselinePercent
    let parsed :=
      if timestamps.length = values.length ∧ timestamps.length > 0 then
        timestamps.filterMap parse
      else []
    let timesList :=
      if parsed.length ≠ values.length then
        (List.range values.length).map
          (fun i : ℕ => now - ((values.length : Int) - (i : Int) - 1) * 3600)
      else parsed
    some ({ currentLevel := currentLevel, trend24h := trend, timestamps := timesList,
            changePercent := changePercent, status := se.1, statusEmoji := se.2,
            lastUpdate := now }, baselineNew)

/-- The series-to-sample path of `FetchFromCloudflare` after a successful
extraction (traffic.go lines 1063-1068): slice to the last 24 points, then
process. -/
def radarPipeline (parse : String → Option Int) (now : Int) (baseline : ℚ)
    (timestamps : List String) (values : List ℚ) : Option (TrafficData × ℚ) :=
  let p := sliceLast24 timestamps values
  processData parse now baseline p.2 p.1

/-- **C6.** The status bands of `determineStatus` hold exactly at the
thresholds: Normal iff `r > 0.7`, Degraded iff `0.3 < r ≤ 0.7`, Throttled
iff `0.1 < r ≤ 0.3`, Shutdown iff `r ≤ 0.1`, for `r = current/baseline`. -/
theorem determineStatus_bands (current baseline : ℚ) :
    (determineStatus current baseline = ("Normal", "🟢") ↔
      0.7 < current / baseline) ∧
    (determineStatus current baseline = ("Degraded", "🟡") ↔
      (0.3 < current / baseline ∧ current / baseline ≤ 0.7)) ∧
    (determineStatus current baseline = ("Throttled", "🟠") ↔
      (0.1 < current / baseline ∧ current / baseline ≤ 0.3)) ∧
    (determineStatus current baseline = ("Shutdown", "🔴") ↔
      current / baseline ≤ 0.1) := by
  by_cases h1 : current / baseline > 0.7
  · have hd : determineStatus current baseline = ("Normal", "🟢") := by
      simp [determineStatus, h1]
    rw [hd]
    exact ⟨iff_of_true rfl h1,
      iff_of_false (by decide) (fun hh => absurd hh.2 (not_le.mpr h1)),
      iff_of_false (by decide) (fun hh => absurd hh.2 (by linarith)),
      iff_of_false (by decide) (fun hh => absurd hh (by linarith))⟩
  · by_cases h2 : current / baseline > 0.3
    · have hd : determineStatus current baseline = ("Degraded", "🟡") := by
        simp [determineStatus, h1, h2]
      rw [hd]
      exact ⟨iff_of_false (by decide) (fun hh => absurd hh h1),
        iff_of_true rfl ⟨h2, not_lt.mp h1⟩,
        iff_of_false (by decide) (fun hh => absurd hh.2 (not_le.mpr h2)),
        iff_of_false (by decide) (fun hh => absurd hh (by linarith))⟩
    · by_cases h3 : current / baseline > 0.1
      · have hd : determineStatus current baseline = ("Throttled", "🟠") := by
          simp [determineStatus, h1, h2, h3]
        rw [hd]
        exact ⟨iff_of_false (by decide) (fun hh => absurd hh h1),
          iff_of_false (by decide) (fun hh => absurd hh.1 h2),
          iff_of_true rfl ⟨h3, not_lt.mp h2⟩,
          iff_of_false (by decide) (fun hh => absurd hh (by linarith))⟩
      · have hd : determineStatus current baseline = ("Shutdown", "🔴") := by
          simp [determineStatus, h1, h2, h3]
        rw [hd]
        exact ⟨iff_of_false (by decide) (fun hh => absurd hh h1),
          iff_of_false (by decide) (fun hh => absurd hh.1 h2),
          iff_of_false (by decide) (fun hh => absurd hh.1 h3),
          iff_of_true rfl (not_lt.mp h3)⟩

theorem foldl_runningMax_ge_init (l : List ℚ) (a : ℚ) :
    a ≤ l.foldl (fun m v => if v > m then v else m) a := by
  induction l generalizing a with
  | nil => exact le_refl a
  | cons x rest ih =>
    rw [List.foldl_cons]
    refine le_trans ?_ (ih (if x > a then x else a))
    by_cases hx : x > a
    · simp [hx, le_of_lt hx]
    · simp [hx]

theorem foldl_runningMax_ge_mem (l : List ℚ) (a : ℚ) (v : ℚ) (hv : v ∈ l) :
    v ≤ l.foldl (fun m v => if v > m then v else m) a := by
  induction l generalizing a with
  | nil => simp at hv
  | cons x rest ih =>
    rw [List.foldl_cons]
    rcases List.mem_cons.mp hv with hvx | hvr
    · subst hvx
      refine le_trans ?_ (foldl_runningMax_ge_init rest (if v > a then v else a))
      by_cases hx : v > a
      · simp [hx]
      · simp [hx, not_lt.mp hx]
    · exact ih _ hvr

/-- Shape of any sample produced by `processData`: the trend lists the
normalised values (in `[0,100]` when the inputs are non-negative), and the
timestamps list always comes out with the trend's length. -/
theorem processData_shape (parse : String → Option Int) (now : Int) (b : ℚ)
    (values : List ℚ) (timestamps : List String) (out : TrafficData × ℚ)
    (h : processData parse now b values timestamps = some out)
    (hnn : ∀ v ∈ values, 0 ≤ v) :
    (∀ x ∈ out.1.trend24h, 0 ≤ x ∧ x ≤ 100) ∧
    out.1.trend24h.length = values.length ∧
    out.1.timestamps.length = values.length := by
  by_cases h0 : values.length = 0
  · rw [processData, if_pos h0] at h
    cases h
  · rw [processData, if_neg h0] at h
    simp only [Option.some.injEq] at h
    subst h
    refine ⟨?_, ?_, ?_⟩
    · intro x hx
      simp only [List.mem_map] at hx
      obtain ⟨v, hv, rfl⟩ := hx
      have hmax1 : (1 : ℚ) ≤ values.foldl (fun m v => if v > m then v else m) 1 :=
        foldl_runningMax_ge_init values 1
      have hmaxv : v ≤ values.foldl (fun m v => if v > m then v else m) 1 :=
        foldl_runningMax_ge_mem values 1 v hv
      have hmaxpos : (0 : ℚ) < values.foldl (fun m v => if v > m then v else m) 1 :=
        lt_of_lt_of_le one_pos hmax1
      constructor
      · have : 0 ≤ v / values.foldl (fun m v => if v > m then v else m) 1 :=
          div_nonneg (hnn v hv) (le_of_lt hmaxpos)
        linarith
      · have hle1 : v / values.foldl (fun m v => if v > m then v else m) 1 ≤ 1 :=
          (div_le_one hmaxpos).mpr hmaxv
        linarith
    · simp
    · by_cases hp : (if timestamps.length = values.length ∧ timestamps.length > 0 then
          timestamps.filterMap parse else []).length ≠ values.length
      · rw [if_pos hp, List.length_map, List.length_range]
      · rw [if_neg hp]
        push_neg at hp
        exact hp

theorem sliceLast24_values_cases (timestamps : List String) (values : List ℚ) :
    (sliceLast24 timestamps values).2 = values ∨
    (sliceLast24 timestamps values).2 = values.drop (values.length - 24) := by
  rw [sliceLast24]
  by_cases hc : values.length ≤ 24 ∨ timestamps.length ≤ 24
  · left; rw [if_pos hc]
  · right
    rw [if_neg hc]
    by_cases ht : timestamps.length > values.length - 24
    · simp [ht]
    · simp [ht]

theorem sliceLast24_length_le (timestamps : List String) (values : List ℚ)
    (hlen : 24 < values.length → 24 < timestamps.length) :
    (sliceLast24 timestamps values).2.length ≤ 24 := by
  rw [sliceLast24]
  by_cases hv : values.length ≤ 24
  · rw [if_pos (Or.inl hv)]
    exact hv
  · have hv' : 24 < values.length := not_le.mp hv
    have ht : ¬timestamps.length ≤ 24 := not_le.mpr (hlen hv')
    rw [if_neg (by push_neg; exact ⟨not_le.mp hv, not_le.mp ht⟩ : ¬_)]
    by_cases htg : timestamps.length > values.length - 24
    · simp [htg, List.length_drop]
      omega
    · simp [htg, List.length_drop]
      omega

/-- **C5 (amended).** Provided every parsed value is non-negative and the
timestamps list has more than 24 entries whenever the value list does,
the produced sample's trend entries are all in `[0,100]`, its trend has at
most 24 entries, and its timestamps list has exactly the trend's length.
(The counterexample shows the claim fails without the two provisos: the
parser accepts value lists with missing timestamps and with negative
entries, and `sliceLast24` then leaves more than 24 values in place.) -/
theorem radarPipeline_sample_shape (parse : String → Option Int) (now : Int) (b : ℚ)
    (timestamps : List String) (values : List ℚ)
    (hnn : ∀ v ∈ values, 0 ≤ v)
    (hlen : 24 < values.length → 24 < timestamps.length)
    (out : TrafficData × ℚ)
    (h : radarPipeline parse now b timestamps values = some out) :
    (∀ x ∈ out.1.trend24h, 0 ≤ x ∧ x ≤ 100) ∧
    out.1.trend24h.length ≤ 24 ∧
    out.1.timestamps.length = out.1.trend24h.length := by
  rw [radarPipeline] at h
  have hnn' : ∀ v ∈ (sliceLast24 timestamps values).2, 0 ≤ v := by
    intro v hv
    rcases sliceLast24_values_cases timestamps values with hcase | hcase
    · exact hnn v (hcase ▸ hv)
    · exact hnn v (List.drop_subset _ _ (hcase ▸ hv))
  have hsh := processData_shape parse now b (sliceLast24 timestamps values).2
    (sliceLast24 timestamps values).1 out h hnn'
  refine ⟨hsh.1, ?_, ?_⟩
  · rw [hsh.2.1]
    exact sliceLast24_length_le timestamps values hlen
  · rw [hsh.2.2, hsh.2.1]

/-- Witness for the amended C5 at a one-point series with no timestamps. -/
theorem radarPipeline_sample_shape_witness :
    ∃ out, radarPipeline (fun _ => none) 0 100 [] [(1 : ℚ)] = some out ∧
      ((∀ x ∈ out.1.trend24h, 0 ≤ x ∧ x ≤ 100) ∧
       out.1.trend24h.length ≤ 24 ∧
       out.1.timestamps.length = out.1.trend24h.length) := by
  cases hq : radarPipeline (fun _ => none) 0 100 [] [(1 : ℚ)] with
  | none =>
    have hs : (radarPipeline (fun _ => none) 0 100 [] [(1 : ℚ)]).isSome = true := by decide
    rw [hq] at hs
    simp at hs
  | some out =>
    exact ⟨out, rfl,
      radarPipeline_sample_shape (fun _ => none) 0 100 [] [(1 : ℚ)]
        (by decide) (by decide) out hq⟩

/-- **C5 (counterexample).** The claim as stated fails: a parsed series of
25 values `-1` with no timestamps (a shape `parseSerie` explicitly
accepts) is left unsliced by `sliceLast24` (the timestamps list has ≤ 24
entries), so the trend keeps 25 entries, and the normalised entries are
`-100 ∉ [0,100]`. -/
theorem radarPipeline_sample_shape_counterexample :
    ¬ (∀ (parse : String → Option Int) (now : Int) (b : ℚ) (timestamps : List String)
        (values : List ℚ) (out : TrafficData × ℚ),
        radarPipeline parse now b timestamps values = some out →
        ((∀ x ∈ out.1.trend24h, 0 ≤ x ∧ x ≤ 100) ∧
         out.1.trend24h.length ≤ 24 ∧
         out.1.timestamps.length = out.1.trend24h.length)) := by
  intro h
  have h25 : (radarPipeline (fun _ => none) 0 100 [] (List.replicate 25 (-1 : ℚ))).map
      (fun o => o.1.trend24h.length) = some 25 := by decide
  cases hq : radarPipeline (fun _ => none) 0 100 [] (List.replicate 25 (-1 : ℚ)) with
  | none =>
    rw [hq] at h25
    simp at h25
  | some out =>
    have hle := (h _ _ _ _ _ out hq).2.1
    rw [hq] at h25
    simp at h25
    omega

/-! ### The Radar fetch-and-cache layer (traffic.go lines 943-1084)

The HTTP exchange is abstracted as an `HTTPStep`: the request either fails
to build, fails on the wire, or yields a status code, a body-read flag and
a decoded body summary.  `FetchFromCloudflare` reads the body before the
status check; `fetchWithURL` (the IRN retry) checks the status first. -/

inductive FetchErr where
  | reqBuild
  | io
  | readBody
  | badStatus (code : Int)
  | decode
  | notSuccess
  | emptyAfterRetry
  | processEmpty
  deriving DecidableEq

/-- Summary of a decoded Radar response body: whether JSON decoding
succeeded, the `success` flag, and what `extractSeries` finds (`none` when
`found` is false). -/
structure RadarBody where
  decodeOk : Bool
  success : Bool
  series : Option (List String × List ℚ)
  deriving DecidableEq

inductive HTTPStep where
  | buildErr
  | doErr
  | got (status : Int) (readOk : Bool) (body : RadarBody)
  deriving DecidableEq

/-- Outcomes of the two network exchanges `FetchFromCloudflare` can make:
the primary IR request and the IRN retry. -/
structure FetchEnv where
  primary : HTTPStep
  retry : HTTPStep
  deriving DecidableEq

/-- The traffic monitor's mutable fields: `cachedData`, `lastUpdate` and
`baseline`. -/
structure TMState where
  cachedData : Option TrafficData
  lastUpdate : Int
  baseline : ℚ
  deriving DecidableEq

/-- `fetchWithURL` (traffic.go lines 1337-1380): status check first, then
body read, decode+success, series extraction, slice and process; any
failure yields `none` and no caching happens here. -/
def fetchWithURL (step : HTTPStep) (parse : String → Option Int) (now : Int)
    (b : ℚ) : Option (TrafficData × ℚ) :=
  match step with
  | .buildErr => none
  | .doErr => none
  | .got status readOk body =>
    if status ≠ 200 then none
    else if ¬readOk then none
    else if ¬body.decodeOk ∨ ¬body.success then none
    else
      match body.series with
      | none => none
      | some (ts, vals) =>
        if vals.length = 0 then none
        else radarPipeline parse now b ts vals

/-- The IRN retry taken by `FetchFromCloudflare` when the IR response
carries no series (traffic.go lines 1050-1060): on success the data is
returned *without* caching (only the `baseline` side effect of
`processData` persists); on failure the whole fetch errors out. -/
def retryWithIRN (retryStep : HTTPStep) (parse : String → Option Int) (now : Int)
    (st : TMState) : Except FetchErr TrafficData × TMState :=
  match fetchWithURL retryStep parse now st.baseline with
  | some (d, b2) => (Except.ok d, { st with baseline := b2 })
  | none => (Except.error FetchErr.emptyAfterRetry, st)

/-- `FetchFromCloudflare` (traffic.go lines 958-1084): build the request,
do it, read the body, check status 200, decode, check `success`, extract
the series (retrying with IRN when absent or empty), slice to 24 points,
process, and only then cache the result with the current time. -/
def fetchFromCloudflare (env : FetchEnv) (parse : String → Option Int) (now : Int)
    (st : TMState) : Except FetchErr TrafficData × TMState :=
  match env.primary with
  | .buildErr => (Except.error FetchErr.reqBuild, st)
  | .doErr => (Except.error FetchErr.io, st)
  | .got status readOk body =>
    if ¬readOk then (Except.error FetchErr.readBody, st)
    else if status ≠ 200 then (Except.error (FetchErr.badStatus status), st)
    else if ¬body.decodeOk then (Except.error FetchErr.decode, st)
    else if ¬body.success then (Except.error FetchErr.notSuccess, st)
    else
      match body.series with
      | none => retryWithIRN env.retry parse now st
      | some (ts, vals) =>
        if vals.length = 0 then retryWithIRN env.retry parse now st
        else
          match radarPipeline parse now st.baseline ts vals with
          | none => (Except.error FetchErr.processEmpty, st)
          | some (d, b2) =>
            (Except.ok d, { cachedData := some d, lastUpdate := now, baseline := b2 })

/-- `GetTrafficData` (traffic.go lines 943-955): serve the cache when it is
non-empty and less than 5 minutes old, else fetch. -/
def getTrafficData (env : FetchEnv) (parse : String → Option Int) (now : Int)
    (st : TMState) : Except FetchErr TrafficData × TMState :=
  match st.cachedData with
  | some d =>
      if now - st.lastUpdate < 5 * 60 then (Except.ok d, st)
      else fetchFromCloudflare env parse now st
  | none => fetchFromCloudflare env parse now st

theorem retryWithIRN_error_state (retryStep : HTTPStep) (parse : String → Option Int)
    (now : Int) (st : TMState) (e : FetchErr)
    (h : (retryWithIRN retryStep parse now st).1 = Except.error e) :
    (retryWithIRN retryStep parse now st).2 = st := by
  unfold retryWithIRN at h ⊢
  cases hr : fetchWithURL retryStep parse now st.baseline with
  | none => rfl
  | some p =>
    rw [hr] at h
    cases p
    simp at h

theorem fetchFromCloudflare_error_state (env : FetchEnv) (parse : String → Option Int)
    (now : Int) (st : TMState) (e : FetchErr)
    (h : (fetchFromCloudflare env parse now st).1 = Except.error e) :
    (fetchFromCloudflare env parse now st).2 = st := by
  unfold fetchFromCloudflare at h ⊢
  cases hp : env.primary with
  | buildErr => rfl
  | doErr => rfl
  | got status readOk body =>
    rw [hp] at h
    by_cases h1 : ¬readOk = true
    · simp only [if_pos h1]
    · simp only [if_neg h1] at h ⊢
      by_cases h2 : status ≠ 200
      · simp only [if_pos h2]
      · simp only [if_neg h2] at h ⊢
        by_cases h3 : ¬body.decodeOk = true
        · simp only [if_pos h3]
        · simp only [if_neg h3] at h ⊢
          by_cases h4 : ¬body.success = true
          · simp only [if_pos h4]
          · simp only [if_neg h4] at h ⊢
            cases hs : body.series with
            | none =>
              rw [hs] at h
              exact retryWithIRN_error_state env.retry parse now st e h
            | some p =>
              rw [hs] at h
              cases p with
              | mk ts vals =>
                by_cases h5 : vals.length = 0
                · simp only [if_pos h5] at h ⊢
                  exact retryWithIRN_error_state env.retry parse now st e h
                · simp only [if_neg h5] at h ⊢
                  cases hq : radarPipeline parse now st.baseline ts vals with
                  | none => rfl
                  | some q =>
                    rw [hq] at h
                    cases q
                    simp at h

/-- **C7.** `GetTrafficData` returns the cached sample when it is non-empty
and less than 5 minutes old, and otherwise performs the fetch; on any
fetch failure (request build, I/O, body read, non-200 status, unparseable
body, `success=false`, empty series even after the IRN retry) the caller
gets an error and the cached sample and its timestamp are unchanged. -/
theorem getTrafficData_cache_and_failure (env : FetchEnv) (parse : String → Option Int)
    (now : Int) (st : TMState) :
    (∀ d, st.cachedData = some d → now - st.lastUpdate < 5 * 60 →
        getTrafficData env parse now st = (Except.ok d, st)) ∧
    ((st.cachedData = none ∨ ¬(now - st.lastUpdate < 5 * 60)) →
        getTrafficData env parse now st = fetchFromCloudflare env parse now st) ∧
    (∀ e, (getTrafficData env parse now st).1 = Except.error e →
        ((getTrafficData env parse now st).2.cachedData = st.cachedData ∧
         (getTrafficData env parse now st).2.lastUpdate = st.lastUpdate)) ∧
    (∀ status body, env.primary = HTTPStep.got status true body → status ≠ 200 →
        (fetchFromCloudflare env parse now st).1 = Except.error (FetchErr.badStatus status)) ∧
    (∀ status body, env.primary = HTTPStep.got status true body → status = 200 →
        body.decodeOk = true → body.success = true → body.series = none →
        fetchWithURL env.retry parse now st.baseline = none →
        (fetchFromCloudflare env parse now st).1 = Except.error FetchErr.emptyAfterRetry) := by
  refine ⟨?_, ?_, ?_, ?_, ?_⟩
  · intro d hd hf
    unfold getTrafficData
    rw [hd]
    simp only [if_pos hf]
  · intro hcase
    unfold getTrafficData
    rcases hcase with hd | hf
    · rw [hd]
    · cases hd : st.cachedData with
      | none => rfl
      | some d => simp only [if_neg hf]
  · intro e he
    have hstate : (getTrafficData env parse now st).2 = st := by
      unfold getTrafficData at he ⊢
      cases hd : st.cachedData with
      | none =>
        rw [hd] at he
        exact fetchFromCloudflare_error_state env parse now st e he
      | some d =>
        rw [hd] at he
        by_cases hf : now - st.lastUpdate < 5 * 60
        · simp only [if_pos hf] at he
          simp at he
        · simp only [if_neg hf] at he ⊢
          exact fetchFromCloudflare_error_state env parse now st e he
    rw [hstate]
    exact ⟨rfl, rfl⟩
  · intro status body hp hs
    simp [fetchFromCloudflare, hp, hs]
  · intro status body hp hs hdec hsucc hser hr
    simp [fetchFromCloudflare, hp, hs, hdec, hsucc, hser, retryWithIRN, hr]

/-- A concrete cached sample for the C7 witness. -/
def sampleD0 : TrafficData :=
  { currentLevel := 100, trend24h := [100], timestamps := [0], changePercent := 0,
    status := "Normal", statusEmoji := "🟢", lastUpdate := 0 }

/-- Witness for C7: a fresh cache is served unchanged, and a non-200
response leaves the stale-cache state untouched while erroring. -/
theorem getTrafficData_cache_and_failure_witness :
    (getTrafficData ⟨HTTPStep.got 500 true ⟨true, true, none⟩, HTTPStep.doErr⟩
        (fun _ => none) 100 ⟨some sampleD0, 0, 100⟩
      = (Except.ok sampleD0, ⟨some sampleD0, 0, 100⟩)) ∧
    ((getTrafficData ⟨HTTPStep.got 500 true ⟨true, true, none⟩, HTTPStep.doErr⟩
        (fun _ => none) 1000 ⟨some sampleD0, 0, 100⟩).2.cachedData = some sampleD0) := by
  constructor
  · exact (getTrafficData_cache_and_failure
      ⟨HTTPStep.got 500 true ⟨true, true, none⟩, HTTPStep.doErr⟩ (fun _ => none) 100
      ⟨some sampleD0, 0, 100⟩).1 sampleD0 rfl (by decide)
  · have h := (getTrafficData_cache_and_failure
      ⟨HTTPStep.got 500 true ⟨true, true, none⟩, HTTPStep.doErr⟩ (fun _ => none) 1000
      ⟨some sampleD0, 0, 100⟩).2.2.1 (FetchErr.badStatus 500) (by rfl)
    rw [h.1]

/-! ### Per-ASN traffic (`FetchASNTrafficFromCloudflare`, traffic.go lines
1502-1540)

`fetchASNTrafficWithURL` (one endpoint attempt, network plus parsing) is
abstracted as a `fetcher` outcome per URL; the loop over the eight
endpoint variations is translated from the source. -/

structure ASTrafficData where
  asn : String
  name : String
  trafficVolume : ℚ
  percentage : ℚ
  status : String
  statusEmoji : String
  lastUpdate : Int
  deriving DecidableEq

/-- The eight endpoint variations tried in order. -/
def asnEndpointVariations : List String :=
  ["https://api.cloudflare.com/client/v4/radar/netflows/top/ases?location=IR&dateRange=1d&format=json",
   "https://api.cloudflare.com/client/v4/radar/http/top/ases?location=IR&dateRange=1d&format=json",
   "https://api.cloudflare.com/client/v4/radar/http/top?dimension=asn&location=IR&dateRange=1d&format=json",
   "https://api.cloudflare.com/client/v4/radar/http/summary?dimension=asn&location=IR&dateRange=1d&format=json",
   "https://api.cloudflare.com/client/v4/radar/http/summary/asn?location=IR&dateRange=1d&format=json",
   "https://api.cloudflare.com/client/v4/radar/netflows/top/asn?location=IR&dateRange=1d&format=json",
   "https://api.cloudflare.com/client/v4/radar/netflows/summary?dimension=asn&location=IR&dateRange=1d&format=json",
   "https://api.cloudflare.com/client/v4/radar/http/top/asn?location=IR&dateRange=1d&format=json"]

/-- The loop body over a list of endpoint URLs: the first attempt that
returns no error *and* a non-empty list wins; when every attempt fails or
comes back empty, the result is the empty list with a nil error. -/
def fetchASNTrafficLoop (fetcher : String → Except String (List ASTrafficData)) :
    List String → List ASTrafficData × Option String
  | [] => ([], none)
  | url :: rest =>
    match fetcher url with
    | Except.ok result =>
        if result.length > 0 then (result, none) else fetchASNTrafficLoop fetcher rest
    | Except.error _ => fetchASNTrafficLoop fetcher rest

/-- `FetchASNTrafficFromCloudflare`: try the eight variations in order. -/
def fetchASNTrafficFromCloudflare
    (fetcher : String → Except String (List ASTrafficData)) :
    List ASTrafficData × Option String :=
  fetchASNTrafficLoop fetcher asnEndpointVariations

theorem fetchASNTrafficLoop_error_none (fetcher : String → Except String (List ASTrafficData))
    (urls : List String) : (fetchASNTrafficLoop fetcher urls).2 = none := by
  induction urls with
  | nil => rfl
  | cons url rest ih =>
    rw [fetchASNTrafficLoop]
    cases fetcher url with
    | ok result =>
      by_cases hr : result.length > 0
      · simp [hr]
      · simp [hr, ih]
    | error e => exact ih

theorem fetchASNTrafficLoop_all_fail (fetcher : String → Except String (List ASTrafficData))
    (urls : List String)
    (hfail : ∀ url ∈ urls, ∀ r, fetcher url = Except.ok r → r = []) :
    fetchASNTrafficLoop fetcher urls = ([], none) := by
  induction urls with
  | nil => rfl
  | cons url rest ih =>
    rw [fetchASNTrafficLoop]
    cases hu : fetcher url with
    | ok result =>
      have hempty : result = [] := hfail url (List.mem_cons_self url rest) result hu
      subst hempty
      simp only [List.length_nil, gt_iff_lt, lt_self_iff_false, if_false]
      exact ih (fun u hmem r hr => hfail u (List.mem_cons_of_mem url hmem) r hr)
    | error e =>
      exact ih (fun u hmem r hr => hfail u (List.mem_cons_of_mem url hmem) r hr)

/-- **C10.** `FetchASNTrafficFromCloudflare` never reports an error to its
caller; in particular, when every one of the eight endpoint variants fails
or yields no data, it returns the empty list with a nil error, so total
upstream failure is indistinguishable from genuine absence. -/
theorem fetchASNTraffic_total_failure_silent :
    (∀ fetcher, (fetchASNTrafficFromCloudflare fetcher).2 = none) ∧
    (∀ fetcher, (∀ url ∈ asnEndpointVariations, ∀ r, fetcher url = Except.ok r → r = []) →
        fetchASNTrafficFromCloudflare fetcher = ([], none)) := by
  constructor
  · intro fetcher
    exact fetchASNTrafficLoop_error_none fetcher asnEndpointVariations
  · intro fetcher hfail
    exact fetchASNTrafficLoop_all_fail fetcher asnEndpointVariations hfail

/-- Witness for C10: a fetcher failing on every URL yields `([], none)`. -/
theorem fetchASNTraffic_total_failure_silent_witness :
    fetchASNTrafficFromCloudflare (fun _ => Except.error "unexpected status 404")
      = ([], none) := by
  refine fetchASNTraffic_total_failure_silent.2 (fun _ => Except.error "unexpected status 404") ?_
  intro url hmem r hr
  cases hr

/-! ## DNS per-resolver retry loop (`checkServer`, dns.go lines 172-214)

One `client.Exchange` call yields an optional response (`some b` with `b`
= rcode-is-success when `r ≠ nil`) and an optional error, classified as
network-level or not by `isNetworkError`.  The context is live (not
cancelled) throughout, as in a normal probe round. -/

inductive GoDNSError where
  | network (msg : String)
  | other (msg : String)
  deriving DecidableEq

structure ExchangeOutcome where
  resp : Option Bool
  err : Option GoDNSError
  deriving DecidableEq

/-- The loop's break condition after one exchange: any response at all
(`r != nil`), or a non-nil error that is not a network error.  A network
error, or the impossible `r = nil, err = nil` case, falls through to a
retry. -/
def exchangeStops (o : ExchangeOutcome) : Bool :=
  o.resp.isSome ||
    (match o.err with
     | some (GoDNSError.other _) => true
     | _ => false)

/-- The retry loop of `checkServer`: `remaining` retries left, current
`attempt` index, accumulated backoff `delays` (milliseconds slept before
this attempt, `100 * 2^(attempt-1)` for attempt ≥ 1).  Returns the number
of attempts made, the delays slept, and the final exchange outcome. -/
def dnsRetryGo (exchange : Nat → ExchangeOutcome) :
    Nat → Nat → List Nat → Nat × List Nat × ExchangeOutcome
  | 0, attempt, delays =>
      let delays := if attempt = 0 then delays else delays ++ [100 * 2 ^ (attempt - 1)]
      (attempt + 1, delays, exchange attempt)
  | remaining + 1, attempt, delays =>
      let delays := if attempt = 0 then delays else delays ++ [100 * 2 ^ (attempt - 1)]
      let o := exchange attempt
      if exchangeStops o then (attempt + 1, delays, o)
      else dnsRetryGo exchange remaining (attempt + 1) delays

/-- The loop as run by `checkServer`: `maxRetries = 2`, so at most three
attempts starting at attempt 0 with no initial delay. -/
def checkServerRetryLoop (exchange : Nat → ExchangeOutcome) :
    Nat × List Nat × ExchangeOutcome :=
  dnsRetryGo exchange 2 0 []

/-- **C8.** Each per-resolver probe makes between 1 and 3 attempts; the
backoff delays slept are the prefix `[100ms, 200ms]` matching the retries
made; every non-final attempt ended in a state that does not stop the loop
(so any response, or a non-network error, ends the loop immediately), and
an early exit happens only on a stopping outcome (so only network-level
failures — or the impossible nil/nil case — trigger a retry). -/
theorem checkServer_retry_policy (exchange : Nat → ExchangeOutcome) :
    (1 ≤ (checkServerRetryLoop exchange).1 ∧ (checkServerRetryLoop exchange).1 ≤ 3) ∧
    (checkServerRetryLoop exchange).2.2 = exchange ((checkServerRetryLoop exchange).1 - 1) ∧
    (checkServerRetryLoop exchange).2.1 = [100, 200].take ((checkServerRetryLoop exchange).1 - 1) ∧
    (∀ k, k + 1 < (checkServerRetryLoop exchange).1 → exchangeStops (exchange k) = false) ∧
    ((checkServerRetryLoop exchange).1 < 3 →
      exchangeStops (exchange ((checkServerRetryLoop exchange).1 - 1)) = true) := by
  cases hs0 : exchangeStops (exchange 0) with
  | true =>
    have hr : checkServerRetryLoop exchange = (1, [], exchange 0) := by
      simp [checkServerRetryLoop, dnsRetryGo, hs0]
    rw [hr]
    refine ⟨⟨by omega, by omega⟩, rfl, rfl, ?_, ?_⟩
    · intro k hk
      omega
    · intro _
      exact hs0
  | false =>
    cases hs1 : exchangeStops (exchange 1) with
    | true =>
      have hr : checkServerRetryLoop exchange = (2, [100], exchange 1) := by
        simp [checkServerRetryLoop, dnsRetryGo, hs0, hs1]
      rw [hr]
      refine ⟨⟨by omega, by omega⟩, rfl, rfl, ?_, ?_⟩
      · intro k hk
        have hk0 : k = 0 := by omega
        subst hk0
        exact hs0
      · intro _
        exact hs1
    | false =>
      have hr : checkServerRetryLoop exchange = (3, [100, 200], exchange 2) := by
        simp [checkServerRetryLoop, dnsRetryGo, hs0, hs1]
      rw [hr]
      refine ⟨⟨by omega, by omega⟩, rfl, rfl, ?_, ?_⟩
      · intro k hk
        have hk01 : k = 0 ∨ k = 1 := by omega
        rcases hk01 with hk0 | hk1
        · subst hk0; exact hs0
        · subst hk1; exact hs1
      · intro hlt
        omega

/-- Witness for C8: a probe whose exchanges all time out makes three
attempts with backoff `[100, 200]`, and its first attempt was indeed a
non-stopping (network-error) outcome. -/
theorem checkServer_retry_policy_witness :
    exchangeStops
        ((fun _ => (⟨none, some (GoDNSError.network "i/o timeout")⟩ : ExchangeOutcome)) 0)
      = false ∧
    (checkServerRetryLoop
        (fun _ => (⟨none, some (GoDNSError.network "i/o timeout")⟩ : ExchangeOutcome))).2.1
      = [100, 200] := by
  constructor
  · exact (checkServer_retry_policy
      (fun _ => (⟨none, some (GoDNSError.network "i/o timeout")⟩ : ExchangeOutcome))).2.2.2.1
      0 (by decide)
  · have h := (checkServer_retry_policy
      (fun _ => (⟨none, some (GoDNSError.network "i/o timeout")⟩ : ExchangeOutcome))).2.2.1
    rw [h]
    decide

/-! ## Snapshot assembly (`monitor.go`, `GetResults`/`updateResults`)

`GetStatuses` (dns.go lines 274-290) deep-copies the DNS map;
`CheckConnectivity` derives the ASN map; `GetTrafficData` serves cache or
fetches; `FetchASNTrafficFromCloudflare` is attempted fresh on every
snapshot.  Chart buffers (PNG rendering, the out-of-scope pure adapter)
are not modelled. -/

/-- `GetStatuses`: a per-entry value copy of the DNS map. -/
def getStatuses (statuses : List (String × DNSStatus)) : List (String × DNSStatus) :=
  statuses.map (fun p => (p.1,
    { server := p.2.server, name := p.2.name, alive := p.2.alive,
      responseTime := p.2.responseTime, lastCheck := p.2.lastCheck,
      error := p.2.error }))

structure MonitoringResult where
  timestamp : Int
  asnStatuses : List (String × ASNStatus)
  dnsStatuses : List (String × DNSStatus)
  trafficData : Option TrafficData
  asTrafficData : List ASTrafficData
  deriving DecidableEq

/-- `updateResults` (monitor.go lines 116-176): derive ASN connectivity,
copy DNS statuses, get (cached or fetched) country traffic, fetch per-ASN
traffic, and stamp the result with `time.Now()`. -/
def updateResults (subscribed : List String) (nameOf : String → String)
    (bgp : List (String × ASNStatus)) (dns : List (String × DNSStatus))
    (env : FetchEnv) (parse : String → Option Int)
    (asnFetcher : String → Except String (List ASTrafficData))
    (tmSt : TMState) (now : Int) : MonitoringResult × TMState :=
  let asnStatuses := checkConnectivity subscribed nameOf bgp now
  let dnsStatuses := getStatuses dns
  let fetched := getTrafficData env parse now tmSt
  let trafficData :=
    match fetched.1 with
    | Except.ok d => some d
    | Except.error _ => none
  let asnTraffic := fetchASNTrafficFromCloudflare asnFetcher
  let asTrafficList :=
    match asnTraffic.2 with
    | some _ => []
    | none => if asnTraffic.1.length > 0 then asnTraffic.1 else []
  ({ timestamp := now, asnStatuses := asnStatuses, dnsStatuses := dnsStatuses,
     trafficData := trafficData, asTrafficData := asTrafficList }, fetched.2)

/-- A BGP record stamped at `lastSeen = 0` (used by the C9 theorems). -/
def asnStB : ASNStatus :=
  { asn := "AS1", country := "IR", name := "N", connected := true,
    lastSeen := 0, lastUpdate := 0 }

/-- **C9 (counterexample).** Two successive snapshots with no intervening
writes are not field-for-field equal: the snapshot `Timestamp` is
`time.Now()` of each call, and the re-derived ASN `connected` flags can
cross the 30-minute freshness boundary between the two calls. -/
theorem updateResults_not_time_invariant :
    ¬ (∀ (subscribed : List String) (nameOf : String → String)
        (bgp : List (String × ASNStatus)) (dns : List (String × DNSStatus))
        (env : FetchEnv) (parse : String → Option Int)
        (asnFetcher : String → Except String (List ASTrafficData))
        (tmSt : TMState) (now1 now2 : Int), now1 ≤ now2 →
        (updateResults subscribed nameOf bgp dns env parse asnFetcher tmSt now1).1
          = (updateResults subscribed nameOf bgp dns env parse asnFetcher tmSt now2).1) := by
  intro h
  have hc := h ["AS1"] (fun _ => "") [("AS1", asnStB)] []
    ⟨HTTPStep.doErr, HTTPStep.doErr⟩ (fun _ => none) (fun _ => Except.error "x")
    ⟨none, 0, 100⟩ 100 2000 (by decide)
  exact absurd (congrArg MonitoringResult.timestamp hc) (by decide)

theorem checkConnectivityStatus_time_invariant (st : ASNStatus) (now1 now2 : Int)
    (h : decide (now1 - st.lastSeen < 30 * 60) = decide (now2 - st.lastSeen < 30 * 60)) :
    checkConnectivityStatus now1 st = checkConnectivityStatus now2 st := by
  unfold checkConnectivityStatus
  rw [h]

theorem checkConnectivity_time_invariant (subscribed : List String)
    (nameOf : String → String) (bgp : List (String × ASNStatus)) (now1 now2 : Int)
    (hsub : ∀ asn ∈ subscribed, (lookupKey bgp asn).isSome)
    (hconn : ∀ asn st, lookupKey bgp asn = some st →
        decide (now1 - st.lastSeen < 30 * 60) = decide (now2 - st.lastSeen < 30 * 60)) :
    checkConnectivity subscribed nameOf bgp now1
      = checkConnectivity subscribed nameOf bgp now2 := by
  unfold checkConnectivity
  suffices hgen : ∀ (l : List String) (acc : List (String × ASNStatus)),
      (∀ asn ∈ l, (lookupKey bgp asn).isSome) →
      l.foldl (fun acc asn =>
        match lookupKey bgp asn with
        | some st => insertKey acc asn (checkConnectivityStatus now1 st)
        | none => insertKey acc asn (initialASNStatus asn (nameOf asn) now1)) acc
      = l.foldl (fun acc asn =>
        match lookupKey bgp asn with
        | some st => insertKey acc asn (checkConnectivityStatus now2 st)
        | none => insertKey acc asn (initialASNStatus asn (nameOf asn) now2)) acc by
    exact hgen subscribed [] hsub
  intro l
  induction l with
  | nil => intro acc _; rfl
  | cons asn rest ih =>
    intro acc hl
    rw [List.foldl_cons, List.foldl_cons]
    have hsome : (lookupKey bgp asn).isSome := hl asn (List.mem_cons_self asn rest)
    obtain ⟨st, hst⟩ := Option.isSome_iff_exists.mp hsome
    simp only [hst, checkConnectivityStatus_time_invariant st now1 now2 (hconn asn st hst)]
    exact ih _ (fun a ha => hl a (List.mem_cons_of_mem asn ha))

/-- **C9 (amended).** Two snapshots with no intervening writes agree on
every field except the snapshot's own `Timestamp`, provided every
subscribed ASN has a stored record, the two snapshot times classify each
record's 30-minute freshness identically (the counterexample crosses that
boundary), and the cached traffic sample is fresh at both times (else the
snapshot itself performs a fetch). -/
theorem updateResults_deterministic_modulo_timestamp (subscribed : List String)
    (nameOf : String → String) (bgp : List (String × ASNStatus))
    (dns : List (String × DNSStatus)) (env : FetchEnv) (parse : String → Option Int)
    (asnFetcher : String → Except String (List ASTrafficData))
    (tmSt : TMState) (now1 now2 : Int)
    (hsub : ∀ asn ∈ subscribed, (lookupKey bgp asn).isSome)
    (hconn : ∀ asn st, lookupKey bgp asn = some st →
        decide (now1 - st.lastSeen < 30 * 60) = decide (now2 - st.lastSeen < 30 * 60))
    (d : TrafficData) (hcache : tmSt.cachedData = some d)
    (hfresh1 : now1 - tmSt.lastUpdate < 5 * 60) (hfresh2 : now2 - tmSt.lastUpdate < 5 * 60) :
    (updateResults subscribed nameOf bgp dns env parse asnFetcher tmSt now1).1.asnStatuses
      = (updateResults subscribed nameOf bgp dns env parse asnFetcher tmSt now2).1.asnStatuses ∧
    (updateResults subscribed nameOf bgp dns env parse asnFetcher tmSt now1).1.dnsStatuses
      = (updateResults subscribed nameOf bgp dns env parse asnFetcher tmSt now2).1.dnsStatuses ∧
    (updateResults subscribed nameOf bgp dns env parse asnFetcher tmSt now1).1.trafficData
      = (updateResults subscribed nameOf bgp dns env parse asnFetcher tmSt now2).1.trafficData ∧
    (updateResults subscribed nameOf bgp dns env parse asnFetcher tmSt now1).1.asTrafficData
      = (updateResults subscribed nameOf bgp dns env parse asnFetcher tmSt now2).1.asTrafficData := by
  have hget1 : getTrafficData env parse now1 tmSt = (Except.ok d, tmSt) := by
    unfold getTrafficData
    rw [hcache]
    simp only [if_pos hfresh1]
  have hget2 : getTrafficData env parse now2 tmSt = (Except.ok d, tmSt) := by
    unfold getTrafficData
    rw [hcache]
    simp only [if_pos hfresh2]
  refine ⟨?_, rfl, ?_, rfl⟩
  · simp only [updateResults]
    exact checkConnectivity_time_invariant subscribed nameOf bgp now1 now2 hsub hconn
  · simp only [updateResults, hget1, hget2]

/-- Witness for the amended C9 at concrete inputs one second apart. -/
theorem updateResults_deterministic_modulo_timestamp_witness :
    (updateResults ["AS1"] (fun _ => "") [("AS1", asnStB)] []
        ⟨HTTPStep.doErr, HTTPStep.doErr⟩ (fun _ => none) (fun _ => Except.error "x")
        ⟨some sampleD0, 0, 100⟩ 100).1.asnStatuses
      = (updateResults ["AS1"] (fun _ => "") [("AS1", asnStB)] []
          ⟨HTTPStep.doErr, HTTPStep.doErr⟩ (fun _ => none) (fun _ => Except.error "x")
          ⟨some sampleD0, 0, 100⟩ 101).1.asnStatuses ∧
    (updateResults ["AS1"] (fun _ => "") [("AS1", asnStB)] []
        ⟨HTTPStep.doErr, HTTPStep.doErr⟩ (fun _ => none) (fun _ => Except.error "x")
        ⟨some sampleD0, 0, 100⟩ 100).1.trafficData
      = (updateResults ["AS1"] (fun _ => "") [("AS1", asnStB)] []
          ⟨HTTPStep.doErr, HTTPStep.doErr⟩ (fun _ => none) (fun _ => Except.error "x")
          ⟨some sampleD0, 0, 100⟩ 101).1.trafficData := by
  have h := updateResults_deterministic_modulo_timestamp ["AS1"] (fun _ => "")
    [("AS1", asnStB)] [] ⟨HTTPStep.doErr, HTTPStep.doErr⟩ (fun _ => none)
    (fun _ => Except.error "x") ⟨some sampleD0, 0, 100⟩ 100 101
    (by decide)
    (by
      intro asn st hl
      simp only [lookupKey] at hl
      by_cases ha : "AS1" = asn
      · rw [if_pos ha] at hl
        cases hl
        decide
      · rw [if_neg ha] at hl
        cases hl)
    sampleD0 rfl (by decide) (by decide)
  exact ⟨h.1, h.2.2.1⟩

end Netblocks
